import Mathlib

/-
Verification of the admin-agent request-routing and data-normalization
pipeline: the keyword intent classifier (src/mastra/workflows/index.ts,
determineRoute), the user-response normalizer
(src/mastra/tools/api/aiClient.ts, normalizeUsersResponse), the
hour-bucketed cache in NutellaClient.getUsers / getDomains
(src/mastra/agents/index.ts), and the generate-answer step of the
admin workflow.

JavaScript values are modelled by the inductive `Json` below; a possibly
`undefined` value is `JsVal := Option Json` (`none` = undefined,
`some Json.null` = null).  Machine floats do not occur in the covered
logic; numbers are modelled as integers.
-/

set_option maxRecDepth 4000

inductive Json where
  | null : Json
  | bool : Bool → Json
  | num : Int → Json
  | str : String → Json
  | arr : List Json → Json
  | obj : List (String × Json) → Json
deriving BEq

/-- A JavaScript value that may additionally be `undefined` (`none`). -/
abbrev JsVal := Option Json

/-- JavaScript truthiness of a defined value. -/
def truthyJ : Json → Bool
  | Json.null => false
  | Json.bool b => b
  | Json.num n => n != 0
  | Json.str s => s != ""
  | Json.arr _ => true
  | Json.obj _ => true

/-- JavaScript truthiness, with `undefined` falsy. -/
def truthyV : JsVal → Bool
  | none => false
  | some j => truthyJ j

/-- Base-10 digit accumulation for index-key parsing. -/
def parseDigits : List Char → Nat → Option Nat
  | [], acc => some acc
  | c :: cs, acc =>
    if c.isDigit then parseDigits cs (acc * 10 + (c.toNat - 48)) else none

/-- Parse a decimal index key (non-empty all-digit strings only). -/
def strToNat? (k : String) : Option Nat :=
  match k.toList with
  | [] => none
  | c :: cs => parseDigits (c :: cs) 0

/-- Property read `v[k]`: association lookup on objects, index lookup on
strings and arrays (as produced by `Object.keys`), `undefined` elsewhere.
(Non-enumerable built-ins such as `length` are not modelled; no code path
covered here reads them.) -/
def jsGet : Json → String → JsVal
  | Json.obj kvs, k => (kvs.find? (fun p => p.1 == k)).map Prod.snd
  | Json.str s, k =>
    (match strToNat? k with
     | some i =>
       if toString i == k then (s.toList[i]?).map (fun c => Json.str (String.singleton c))
       else none
     | none => none)
  | Json.arr xs, k =>
    (match strToNat? k with
     | some i => if toString i == k then xs[i]? else none
     | none => none)
  | _, _ => none

/-- Optional-chained property read `v?.[k]`. -/
def jpropV : JsVal → String → JsVal
  | none, _ => none
  | some j, k => jsGet j k

/-- `Object.keys`: own enumerable keys (index keys for strings/arrays). -/
def jsKeys : Json → List String
  | Json.obj kvs => kvs.map Prod.fst
  | Json.str s => (List.range s.length).map (fun i => toString i)
  | Json.arr xs => (List.range xs.length).map (fun i => toString i)
  | _ => []

/-- JavaScript nullish coalescing `a ?? b`. -/
def jnn (a b : JsVal) : JsVal :=
  match a with
  | some Json.null => b
  | some v => some v
  | none => b

/-- JavaScript logical or `a || b`. -/
def jsOr (a b : JsVal) : JsVal :=
  if truthyV a then a else b

mutual

/-- JavaScript `String(v)` coercion of a defined value. -/
def jsToString : Json → String
  | Json.null => "null"
  | Json.bool b => cond b "true" "false"
  | Json.num n => toString n
  | Json.str s => s
  | Json.arr xs => jsArrStr xs
  | Json.obj _ => "[object Object]"

/-- `Array.prototype.toString`: elements joined with commas, `null`
rendering as the empty string. -/
def jsArrStr : List Json → String
  | [] => ""
  | [Json.null] => ""
  | [x] => jsToString x
  | Json.null :: y :: ys => "," ++ jsArrStr (y :: ys)
  | x :: y :: ys => jsToString x ++ "," ++ jsArrStr (y :: ys)

end

/-- `String(v)` applied to a join element (`undefined` never reaches the
join in the normalizer because elements are filtered for truthiness). -/
def jsValStr : JsVal → String
  | none => ""
  | some j => jsToString j

/-- The nine canonical keys the normalizer always assigns on the record. -/
def canonicalKeys : List String :=
  ["id", "email", "firstName", "lastName", "displayName", "name",
   "username", "createdAt", "updatedAt"]

/-- Properties inherited from `Object.prototype`; the source's
`k in u` test sees these even though they are not own keys of `u`. -/
def objectProtoKeys : List String :=
  ["constructor", "hasOwnProperty", "isPrototypeOf", "propertyIsEnumerable",
   "toLocaleString", "toString", "valueOf", "__proto__",
   "__defineGetter__", "__defineSetter__", "__lookupGetter__", "__lookupSetter__"]

/-- The source's `k in u` test during the pass-through copy: true for the
nine canonical keys (always assigned, possibly to `undefined`), inherited
`Object.prototype` properties and keys copied earlier. -/
def keyInRecord (k : String) (extras : List (String × JsVal)) : Bool :=
  canonicalKeys.any (fun c => c == k) || objectProtoKeys.any (fun c => c == k)
    || extras.any (fun p => p.1 == k)

/-- The pass-through loop of `normalizeUsersResponse`:
`for (const k of Object.keys(src)) if (!(k in u)) u[k] = src[k]`. -/
def copyExtras (src : Json) : List String → List (String × JsVal) → List (String × JsVal)
  | [], acc => acc
  | k :: ks, acc =>
    if keyInRecord k acc then copyExtras src ks acc
    else copyExtras src ks (acc ++ [(k, jsGet src k)])

/-- The normalized entity record built by `normalizeUsersResponse`: the nine
canonical fields (each possibly `undefined`) plus the copied extra keys. -/
structure User where
  id : JsVal
  email : JsVal
  firstName : JsVal
  lastName : JsVal
  displayName : JsVal
  name : JsVal
  username : JsVal
  createdAt : JsVal
  updatedAt : JsVal
  extras : List (String × JsVal)

/-- `const src = it ?? {}` (array elements are never `undefined`, so only
`null` is replaced). -/
def denull : Json → Json
  | Json.null => Json.obj []
  | j => j

/-- Per-element mapping of `normalizeUsersResponse`
(src/mastra/tools/api/aiClient.ts lines 117-135), field by field:
each canonical field is a `??` alias chain, `name` is a `||` chain over
the computed displayName, the space-joined truthy first/last names and
the raw `name` field, and remaining keys are copied by the
`!(k in u)` loop. -/
def normalizeElem (it : Json) : User :=
  let src := denull it
  let fId := jnn (jsGet src "id") (jnn (jsGet src "user_id") (jnn (jsGet src "uid") (jnn (jsGet src "_id") none)))
  let fEmail := jnn (jsGet src "email") (jnn (jsGet src "email_address") (jnn (jsGet src "emailAddress") none))
  let fFirst := jnn (jsGet src "firstName") (jnn (jsGet src "first_name") (jnn (jsGet src "given_name") none))
  let fLast := jnn (jsGet src "lastName") (jnn (jsGet src "last_name") (jnn (jsGet src "family_name") none))
  let fDisplay := jnn (jsGet src "displayName") (jnn (jsGet src "display_name") (jnn (jsGet src "name") (jnn (jsGet src "fullName") none)))
  let joined := String.intercalate " " ((([fFirst, fLast].filter truthyV)).map jsValStr)
  let fName := jsOr fDisplay (jsOr (some (Json.str joined)) (jsOr (jsGet src "name") none))
  let fUsername := jnn (jsGet src "username") (jnn (jsGet src "login") none)
  let fCreated := jnn (jsGet src "created_at") (jnn (jsGet src "createdAt") (jnn (jsGet src "created") none))
  let fUpdated := jnn (jsGet src "updated_at") (jnn (jsGet src "updatedAt") (jnn (jsGet src "updated") none))
  { id := fId, email := fEmail, firstName := fFirst, lastName := fLast,
    displayName := fDisplay, name := fName, username := fUsername,
    createdAt := fCreated, updatedAt := fUpdated,
    extras := copyExtras src (jsKeys src) [] }

/-- Is the value a (defined) array? -/
def isArrB : JsVal → Bool
  | some (Json.arr _) => true
  | _ => false

/-- Array payload of a value known to be an array. -/
def toArr : JsVal → List Json
  | some (Json.arr xs) => xs
  | _ => []

/-- Wrapper-shape selection of `normalizeUsersResponse`
(src/mastra/tools/api/aiClient.ts lines 109-115), transcribed with the
source's truthiness guards. -/
def selectArr (j : Json) : List Json :=
  match j with
  | Json.arr xs => xs
  | _ =>
    if truthyV (jsGet j "users") && isArrB (jsGet j "users") then toArr (jsGet j "users")
    else if truthyV (jsGet j "data") && isArrB (jpropV (jsGet j "data") "users") then toArr (jpropV (jsGet j "data") "users")
    else if truthyV (jsGet j "data") && isArrB (jsGet j "data") then toArr (jsGet j "data")
    else if isArrB (jsGet j "items") then toArr (jsGet j "items")
    else [j]

/-- `normalizeUsersResponse` (src/mastra/tools/api/aiClient.ts lines
105-137): falsy input gives `[]`, otherwise the selected element sequence
is mapped through the per-element normalizer. -/
def normalizeUsersResponse (raw : JsVal) : List User :=
  match raw with
  | none => []
  | some j => if truthyJ j then (selectArr j).map normalizeElem else []

/-- Association-list lookup on a record rendered as key/value pairs. -/
def recGet : List (String × JsVal) → String → Option JsVal
  | [], _ => none
  | p :: rest, k => if p.1 == k then some p.2 else recGet rest k

/-- The record as a JavaScript object: the nine canonical keys in
assignment order, then the copied extras. -/
def User.toObj (u : User) : List (String × JsVal) :=
  [("id", u.id), ("email", u.email), ("firstName", u.firstName),
   ("lastName", u.lastName), ("displayName", u.displayName), ("name", u.name),
   ("username", u.username), ("createdAt", u.createdAt), ("updatedAt", u.updatedAt)]
    ++ u.extras

/-- Case-insensitive-ready substring helper: is `p` a prefix of the list? -/
def isPrefixL : List Char → List Char → Bool
  | [], _ => true
  | _ :: _, [] => false
  | c :: cs, d :: ds => c == d && isPrefixL cs ds

/-- Contiguous containment of `p` in the list (JS `String.prototype.includes`
on the underlying characters). -/
def isInfixL (p : List Char) : List Char → Bool
  | [] => isPrefixL p []
  | c :: t => isPrefixL p (c :: t) || isInfixL p t

/-- JS `s.includes(sub)`. -/
def strIncludes (s sub : String) : Bool := isInfixL sub.toList s.toList

/-- JS `s.startsWith(pre)`. -/
def startsWithB (s pre : String) : Bool := isPrefixL pre.toList s.toList

/-- The route computed per query by the classifier step. -/
inductive Route where
  | users : Route
  | domains : Route
deriving DecidableEq

/-- User-keyword list of `determineRoute` (src/mastra/workflows/index.ts
line 30). -/
def userKeywords : List String :=
  ["user", "users", "account", "accounts", "profile", "profiles", "member",
   "members", "people", "person"]

/-- Domain-keyword list of `determineRoute` (src/mastra/workflows/index.ts
line 31). -/
def domainKeywords : List String :=
  ["domain", "domains", "configuration", "config", "setting", "settings",
   "environment", "setup"]

/-- The routing decision of the `determine-route` step
(src/mastra/workflows/index.ts lines 27-37): lower-case the query, test
keyword containment, route to domains only when a domain keyword matched
and no user keyword did.  (The step's surrounding missing-input check is
pipeline plumbing outside this function.) -/
def determineRoute (query : String) : Route :=
  let q := query.toLower
  let isUserQuery := userKeywords.any (fun kw => strIncludes q kw)
  let isDomainQuery := domainKeywords.any (fun kw => strIncludes q kw)
  if isDomainQuery && !isUserQuery then Route.domains else Route.users

/-- `hostname.replace(/[:\/\\]/g, '_')` applied to the (already extracted)
URL hostname. -/
def sanitizeHost (s : String) : String :=
  ⟨s.toList.map (fun c => if c == ':' || c == '/' || c == '\\' then '_' else c)⟩

/-- `String(n).padStart(2, '0')` for the month/day/hour fields. -/
def pad2 (n : Nat) : String :=
  if n < 10 then "0" ++ toString n else toString n

/-- Civil date from days since 1970-01-01 (proleptic Gregorian, the
computation behind `getUTCFullYear`/`getUTCMonth`/`getUTCDate`);
returns (year, month 1-12, day 1-31).  Valid for non-negative day counts. -/
def civilFromDays (z : Nat) : Nat × Nat × Nat :=
  let zz := z + 719468
  let era := zz / 146097
  let doe := zz % 146097
  let yoe := (doe - doe / 1460 + doe / 36524 - doe / 146096) / 365
  let y := yoe + era * 400
  let doy := doe - (365 * yoe + yoe / 4 - yoe / 100)
  let mp := (5 * doy + 2) / 153
  let d := doy - (153 * mp + 2) / 5 + 1
  let m := if mp < 10 then mp + 3 else mp - 9
  (if m ≤ 2 then y + 1 else y, m, d)

/-- The `YYYYMMDDTHHZ` stamp for a given UTC hour index (hours since the
epoch).  One stamp per calendar hour. -/
def stampOfHourIdx (hi : Nat) : String :=
  let ymd := civilFromDays (hi / 24)
  toString ymd.1 ++ pad2 ymd.2.1 ++ pad2 ymd.2.2 ++ "T" ++ pad2 (hi % 24) ++ "Z"

/-- The hour-bucket stamp of a clock value in milliseconds since the epoch:
the stamp is a function of `ms / 3600000` alone. -/
def hourStamp (ms : Nat) : String := stampOfHourIdx (ms / 3600000)

/-- On-disk cache file as seen by the client: its mtime and the result of
`JSON.parse` on its text (`none` = the text is malformed and parsing
throws). -/
structure FileInfo where
  mtimeMs : Nat
  parsed : Option Json

/-- The cache directory: file name to file state, in directory order. -/
abbrev Fs := List (String × FileInfo)

/-- `fs.stat` / `readFile` on the cache directory: succeeds exactly for
present files. -/
def fsStat : Fs → String → Option FileInfo
  | [], _ => none
  | p :: rest, n => if p.1 == n then some p.2 else fsStat rest n

/-- `writeFile`: truncate/replace an existing entry or create a new one,
with the written mtime supplied by the caller. -/
def fsWrite : Fs → String → FileInfo → Fs
  | [], n, fi => [(n, fi)]
  | (m, g) :: rest, n, fi =>
    if m == n then (m, fi) :: rest else (m, g) :: fsWrite rest n fi

/-- One invocation's environment: whether the cache-directory setup
(`mkdir -p`) succeeds, the cache directory contents, the clock, and the
network behaviour (`net url i` is the result of the i-th GET this
invocation issues to `url`). -/
structure Env where
  cacheDirOk : Bool
  fs : Fs
  ms : Nat
  net : String → Nat → Except String Json

/-- Result of one `getUsers`/`getDomains` invocation: the value returned or
error thrown, the cache directory afterwards, and how many network GETs
were issued. -/
structure FetchResult where
  outcome : Except String Json
  fs : Fs
  calls : Nat

/-- The outer `catch (err)` block of `getUsers`/`getDomains`
(src/mastra/agents/index.ts lines 123-131): a direct GET whose success is
returned and whose failure is thrown.  When reached via the rethrown fetch
error this is the second GET of the invocation. -/
def outerCatchFetch (env : Env) (url : String) : FetchResult :=
  match env.net url 1 with
  | Except.ok d2 => ⟨Except.ok d2, env.fs, 2⟩
  | Except.error e2 => ⟨Except.error e2, env.fs, 2⟩

/-- JS default `Array.prototype.sort` comparison on (ASCII) names:
lexicographic on the character sequence. -/
def strLtL : List Char → List Char → Bool
  | [], [] => false
  | [], _ :: _ => true
  | _ :: _, [] => false
  | c :: cs, d :: ds => c < d || (c == d && strLtL cs ds)

/-- Non-strict name order used for sorting the cache-file candidates. -/
def strLeB (a b : String) : Bool := !(strLtL b.toList a.toList)

/-- Insertion into a sorted name list. -/
def insSorted (x : String) : List String → List String
  | [] => [x]
  | y :: ys => if strLeB x y then x :: y :: ys else y :: insSorted x ys

/-- `files.sort()` on the cache-directory listing. -/
def sortNames (l : List String) : List String := l.foldr insSorted []

/-- The fetch-and-update block of `getUsers`
(src/mastra/agents/index.ts lines 93-122): GET `/users`; on success write
the response to `cacheFile + ".tmp"` and to `cacheFile` and return it; on
failure scan the directory for `{host}_users_*`, sort, take the last, and
return its parsed content; when no candidate exists or its parse throws,
the rethrown error lands in the outer catch, which issues a second GET. -/
def usersFetchUpdate (env : Env) (apiHost hostName cacheFile : String) : FetchResult :=
  let url := apiHost ++ "/users"
  match env.net url 0 with
  | Except.ok data =>
    let fs1 := fsWrite env.fs (cacheFile ++ ".tmp") ⟨env.ms, some data⟩
    let fs2 := fsWrite fs1 cacheFile ⟨env.ms, some data⟩
    ⟨Except.ok data, fs2, 1⟩
  | Except.error _e =>
    let pre := hostName ++ "_users_"
    match (sortNames ((env.fs.map Prod.fst).filter (fun f => startsWithB f pre))).getLast? with
    | some cand =>
      match fsStat env.fs cand with
      | some fi =>
        match fi.parsed with
        | some v => ⟨Except.ok v, env.fs, 1⟩
        | none => outerCatchFetch env url
      | none => outerCatchFetch env url
    | none => outerCatchFetch env url

/-- `NutellaClient.getUsers` (src/mastra/agents/index.ts lines 64-132).
When cache setup succeeds: serve the current hour-bucket file if it is
younger than 3600000 ms and parses (a parse throw is swallowed by the
`cache miss` catch and falls through to the fetch path); otherwise fetch.
When cache setup fails: a single direct GET. -/
def getUsers (env : Env) (apiHost hostRaw : String) : FetchResult :=
  if env.cacheDirOk then
    let hostName := sanitizeHost hostRaw
    let cacheFile := hostName ++ "_users_" ++ hourStamp env.ms ++ ".json"
    match fsStat env.fs cacheFile with
    | some fi =>
      if env.ms - fi.mtimeMs < 3600000 then
        match fi.parsed with
        | some v => ⟨Except.ok v, env.fs, 0⟩
        | none => usersFetchUpdate env apiHost hostName cacheFile
      else usersFetchUpdate env apiHost hostName cacheFile
    | none => usersFetchUpdate env apiHost hostName cacheFile
  else
    ⟨env.net (apiHost ++ "/users") 0, env.fs, 1⟩

/-- The fetch-and-update block of `getDomains`
(src/mastra/agents/index.ts lines 162-192), identical to the users one
with the `/domains` path and `_domains_` file segment. -/
def domainsFetchUpdate (env : Env) (apiHost hostName cacheFile : String) : FetchResult :=
  let url := apiHost ++ "/domains"
  match env.net url 0 with
  | Except.ok data =>
    let fs1 := fsWrite env.fs (cacheFile ++ ".tmp") ⟨env.ms, some data⟩
    let fs2 := fsWrite fs1 cacheFile ⟨env.ms, some data⟩
    ⟨Except.ok data, fs2, 1⟩
  | Except.error _e =>
    let pre := hostName ++ "_domains_"
    match (sortNames ((env.fs.map Prod.fst).filter (fun f => startsWithB f pre))).getLast? with
    | some cand =>
      match fsStat env.fs cand with
      | some fi =>
        match fi.parsed with
        | some v => ⟨Except.ok v, env.fs, 1⟩
        | none => outerCatchFetch env url
      | none => outerCatchFetch env url
    | none => outerCatchFetch env url

/-- `NutellaClient.getDomains` (src/mastra/agents/index.ts lines 134-202). -/
def getDomains (env : Env) (apiHost hostRaw : String) : FetchResult :=
  if env.cacheDirOk then
    let hostName := sanitizeHost hostRaw
    let cacheFile := hostName ++ "_domains_" ++ hourStamp env.ms ++ ".json"
    match fsStat env.fs cacheFile with
    | some fi =>
      if env.ms - fi.mtimeMs < 3600000 then
        match fi.parsed with
        | some v => ⟨Except.ok v, env.fs, 0⟩
        | none => domainsFetchUpdate env apiHost hostName cacheFile
      else domainsFetchUpdate env apiHost hostName cacheFile
    | none => domainsFetchUpdate env apiHost hostName cacheFile
  else
    ⟨env.net (apiHost ++ "/domains") 0, env.fs, 1⟩

/-- The resource-generic form of the fetch-and-update block, with the
resource kind a parameter used for the URL path suffix and the cache-file
name segment. -/
def resourceFetchUpdate (env : Env) (kind apiHost hostName cacheFile : String) : FetchResult :=
  let url := apiHost ++ ("/" ++ kind)
  match env.net url 0 with
  | Except.ok data =>
    let fs1 := fsWrite env.fs (cacheFile ++ ".tmp") ⟨env.ms, some data⟩
    let fs2 := fsWrite fs1 cacheFile ⟨env.ms, some data⟩
    ⟨Except.ok data, fs2, 1⟩
  | Except.error _e =>
    let pre := hostName ++ ("_" ++ kind ++ "_")
    match (sortNames ((env.fs.map Prod.fst).filter (fun f => startsWithB f pre))).getLast? with
    | some cand =>
      match fsStat env.fs cand with
      | some fi =>
        match fi.parsed with
        | some v => ⟨Except.ok v, env.fs, 1⟩
        | none => outerCatchFetch env url
      | none => outerCatchFetch env url
    | none => outerCatchFetch env url

/-- The resource-generic form of the client fetch: `getUsers` and
`getDomains` are its instances at kind `"users"` / `"domains"`. -/
def getResource (env : Env) (kind apiHost hostRaw : String) : FetchResult :=
  if env.cacheDirOk then
    let hostName := sanitizeHost hostRaw
    let cacheFile := hostName ++ ("_" ++ kind ++ "_") ++ hourStamp env.ms ++ ".json"
    match fsStat env.fs cacheFile with
    | some fi =>
      if env.ms - fi.mtimeMs < 3600000 then
        match fi.parsed with
        | some v => ⟨Except.ok v, env.fs, 0⟩
        | none => resourceFetchUpdate env kind apiHost hostName cacheFile
      else resourceFetchUpdate env kind apiHost hostName cacheFile
    | none => resourceFetchUpdate env kind apiHost hostName cacheFile
  else
    ⟨env.net (apiHost ++ ("/" ++ kind)) 0, env.fs, 1⟩

/-- The current hour-bucket cache file name used by `getUsers` for a given
raw hostname and clock. -/
def usersCacheName (hostRaw : String) (ms : Nat) : String :=
  sanitizeHost hostRaw ++ "_users_" ++ hourStamp ms ++ ".json"

/-- Escaping of JSON string contents as in `JSON.stringify` (the common
escapes; rarer control characters do not occur in the covered inputs). -/
def escJson (s : String) : String :=
  String.join (s.toList.map (fun c =>
    if c == '"' then "\\\""
    else if c == '\\' then "\\\\"
    else if c == '\n' then "\\n"
    else if c == '\t' then "\\t"
    else if c == '\r' then "\\r"
    else String.singleton c))

mutual

/-- `JSON.stringify` with no indentation, as used on `resp.raw` in the
generate-answer step. -/
def jsonStringify : Json → String
  | Json.null => "null"
  | Json.bool b => cond b "true" "false"
  | Json.num n => toString n
  | Json.str s => "\"" ++ escJson s ++ "\""
  | Json.arr xs => "[" ++ stringifyArr xs ++ "]"
  | Json.obj kvs => "\x7b" ++ stringifyObj kvs ++ "\x7d"

/-- Comma-joined member rendering of an array. -/
def stringifyArr : List Json → String
  | [] => ""
  | [x] => jsonStringify x
  | x :: y :: ys => jsonStringify x ++ "," ++ stringifyArr (y :: ys)

/-- Comma-joined member rendering of an object. -/
def stringifyObj : List (String × Json) → String
  | [] => ""
  | [kv] => stringifyKV kv
  | kv :: p :: ps => stringifyKV kv ++ "," ++ stringifyObj (p :: ps)

/-- One `"key":value` member. -/
def stringifyKV : String × Json → String
  | (k, v) => "\"" ++ escJson k ++ "\":" ++ jsonStringify v

end

/-- Output of one fetch branch as handed to the generate-answer step. -/
structure StepData where
  data : Json
  dataType : String
  query : String

/-- Result of the `aiTool.execute` call inside the generate-answer step:
either a response carrying optional assistant text and the raw payload, or
a thrown error with its message. -/
inductive AiCallResult where
  | ok : Option String → Json → AiCallResult
  | thrown : String → AiCallResult

/-- The `{answer}` output shape of the generate-answer step. -/
structure AnswerOut where
  answer : String
deriving DecidableEq

/-- The `generate-answer` step (src/mastra/workflows/index.ts lines
110-186): missing input or missing branch data throw; otherwise the AI
call's assistant text (or the stringified raw payload) is trimmed and
returned, and a thrown AI-call error is converted into a successful output
embedding the error message. -/
def generateAnswer (inputData : Option (Option StepData × Option StepData))
    (ai : AiCallResult) : Except String AnswerOut :=
  match inputData with
  | none => Except.error "Input data not found"
  | some (usersData, domainsData) =>
    match (match usersData with | some x => some x | none => domainsData) with
    | none => Except.error "No data found from fetch steps"
    | some _activeData =>
      match ai with
      | AiCallResult.ok assistant raw =>
        Except.ok ⟨(match assistant with
                    | some a => a
                    | none => jsonStringify raw).trim⟩
      | AiCallResult.thrown m => Except.ok ⟨"Error calling AI service: " ++ m⟩

/-- Claim-side helper: first value in the alias chain that is present and
not null ("first non-empty" in the spec's wording is settled by the
C3 counterexample). -/
def firstNonNull (src : Json) (ks : List String) : JsVal :=
  ks.foldr (fun k acc => jnn (jsGet src k) acc) none

/-- Claim-side wrapper-shape selection, written exactly per the claim's
seven precedence rules (no truthiness conjuncts on the probed fields). -/
def specSelect (raw : JsVal) : List Json :=
  match raw with
  | none => []
  | some j =>
    if truthyJ j then
      (match j with
       | Json.arr xs => xs
       | _ =>
         if isArrB (jsGet j "users") then toArr (jsGet j "users")
         else if isArrB (jpropV (jsGet j "data") "users") then toArr (jpropV (jsGet j "data") "users")
         else if isArrB (jsGet j "data") then toArr (jsGet j "data")
         else if isArrB (jsGet j "items") then toArr (jsGet j "items")
         else [j])
    else []

/-- Claim-side display-name alias chain. -/
def specDisplayName (src : Json) : JsVal :=
  firstNonNull src ["displayName", "display_name", "name", "fullName"]

/-- Claim-side space-joined truthy first/last name parts. -/
def specJoinedName (src : Json) : String :=
  String.intercalate " "
    ((([firstNonNull src ["firstName", "first_name", "given_name"],
        firstNonNull src ["lastName", "last_name", "family_name"]].filter truthyV)).map jsValStr)

/-- Claim-side derivation of the `name` field (amended priority: the
display-name alias chain itself falls back to the raw `name` field). -/
def specName (it : Json) : JsVal :=
  let src := denull it
  jsOr (specDisplayName src) (jsOr (some (Json.str (specJoinedName src))) (jsOr (jsGet src "name") none))

lemma recGet_append_some (acc l : List (String × JsVal)) (k : String) (w : JsVal)
    (h : recGet acc k = some w) : recGet (acc ++ l) k = some w := by
  induction acc with
  | nil => simp [recGet] at h
  | cons p rest ih =>
    cases hb : (p.1 == k) with
    | true => simp [recGet, hb] at h ⊢; exact h
    | false => simp [recGet, hb] at h ⊢; exact ih h

lemma recGet_append_none (acc l : List (String × JsVal)) (k : String)
    (h : recGet acc k = none) : recGet (acc ++ l) k = recGet l k := by
  induction acc with
  | nil => simp
  | cons p rest ih =>
    cases hb : (p.1 == k) with
    | true => simp [recGet, hb] at h
    | false => simp [recGet, hb] at h ⊢; exact ih h

lemma recGet_none_any (acc : List (String × JsVal)) (k : String)
    (h : recGet acc k = none) : acc.any (fun p => p.1 == k) = false := by
  induction acc with
  | nil => rfl
  | cons p rest ih =>
    cases hb : (p.1 == k) with
    | true => simp [recGet, hb] at h
    | false =>
      have h2 : recGet rest k = none := by simpa [recGet, hb] using h
      simp only [List.any_cons, hb, Bool.false_or]
      exact ih h2

lemma recGet_copyExtras_mono (src : Json) (ks : List String)
    (acc : List (String × JsVal)) (k : String) (w : JsVal)
    (h : recGet acc k = some w) : recGet (copyExtras src ks acc) k = some w := by
  induction ks generalizing acc with
  | nil => simpa [copyExtras] using h
  | cons k1 ks ih =>
    unfold copyExtras
    cases hin : keyInRecord k1 acc with
    | true => simp [hin]; exact ih _ h
    | false => simp [hin]; exact ih _ (recGet_append_some _ _ _ _ h)

lemma recGet_copyExtras_found (src : Json) (ks : List String) (k : String)
    (hc : canonicalKeys.any (fun c => c == k) = false)
    (hp : objectProtoKeys.any (fun c => c == k) = false) :
    ∀ acc, recGet acc k = none → k ∈ ks →
      recGet (copyExtras src ks acc) k = some (jsGet src k) := by
  induction ks with
  | nil => intro acc _ hk; cases hk
  | cons k1 ks ih =>
    intro acc hacc hk
    unfold copyExtras
    by_cases he : k1 = k
    · subst he
      have hrec : keyInRecord k1 acc = false := by
        unfold keyInRecord
        rw [hc, hp, recGet_none_any acc k1 hacc]
        rfl
      simp only [hrec, Bool.false_eq_true, if_false]
      apply recGet_copyExtras_mono
      rw [recGet_append_none _ _ _ hacc]
      simp [recGet]
    · cases hk with
      | head => exact absurd rfl he
      | tail _ hk2 =>
        cases hin : keyInRecord k1 acc with
        | true => simp [hin]; exact ih _ hacc hk2
        | false =>
          simp [hin]
          apply ih _ _ hk2
          rw [recGet_append_none _ _ _ hacc]
          simp [recGet, beq_eq_false_iff_ne, he]

lemma fsStat_fsWrite_self (fs : Fs) (n : String) (fi : FileInfo) :
    fsStat (fsWrite fs n fi) n = some fi := by
  induction fs with
  | nil => simp [fsWrite, fsStat]
  | cons p rest ih =>
    obtain ⟨m, g⟩ := p
    unfold fsWrite
    cases hb : (m == n) with
    | true => simp [hb, fsStat]
    | false => simp [hb, fsStat]; exact ih

lemma sameBucket_age (ms1 ms2 : Nat) (hle : ms1 ≤ ms2)
    (hb : ms1 / 3600000 = ms2 / 3600000) : ms2 - ms1 < 3600000 := by
  have h1 := Nat.div_add_mod ms1 3600000
  have h2 := Nat.div_add_mod ms2 3600000
  have m1 := Nat.mod_lt ms1 (show 0 < 3600000 by decide)
  have m2 := Nat.mod_lt ms2 (show 0 < 3600000 by decide)
  omega

lemma truthyV_and_isArrB (v : JsVal) : (truthyV v && isArrB v) = isArrB v := by
  cases v with
  | none => rfl
  | some j => cases j <;> simp [truthyV, truthyJ, isArrB]

lemma jprop_users_none (d : JsVal) (h : truthyV d = false) : jpropV d "users" = none := by
  cases d with
  | none => rfl
  | some j =>
    cases j with
    | null => rfl
    | bool b => rfl
    | num n => rfl
    | str s => rfl
    | arr xs => simp [truthyV, truthyJ] at h
    | obj kvs => simp [truthyV, truthyJ] at h

lemma and_isArrB_jprop (d : JsVal) :
    (truthyV d && isArrB (jpropV d "users")) = isArrB (jpropV d "users") := by
  cases ht : truthyV d with
  | false => rw [jprop_users_none d ht]; rfl
  | true => rw [Bool.true_and]

lemma jsOr_ne_empty (a b : JsVal) (hb : b ≠ some (Json.str "")) :
    jsOr a b ≠ some (Json.str "") := by
  unfold jsOr
  cases ht : truthyV a with
  | false => simpa [ht] using hb
  | true =>
    simp only [ht, if_true]
    intro hx
    rw [hx] at ht
    exact absurd ht (by decide)

lemma usersFetchUpdate_calls_pos (env : Env) (apiHost hostName cacheFile : String) :
    1 ≤ (usersFetchUpdate env apiHost hostName cacheFile).calls := by
  simp only [usersFetchUpdate, outerCatchFetch]
  repeat' split
  all_goals simp

lemma recGet_toObj_noncanonical (u : User) (k : String)
    (hc : canonicalKeys.any (fun c => c == k) = false) :
    recGet u.toObj k = recGet u.extras k := by
  rw [List.any_eq_false] at hc
  have h9 : ∀ c, c ∈ canonicalKeys → (c == k) = false := by
    intro c hcm
    have h2 := hc c hcm
    simpa using h2
  unfold User.toObj
  simp only [List.cons_append, List.nil_append, recGet,
    h9 "id" (by simp [canonicalKeys]), h9 "email" (by simp [canonicalKeys]),
    h9 "firstName" (by simp [canonicalKeys]), h9 "lastName" (by simp [canonicalKeys]),
    h9 "displayName" (by simp [canonicalKeys]), h9 "name" (by simp [canonicalKeys]),
    h9 "username" (by simp [canonicalKeys]), h9 "createdAt" (by simp [canonicalKeys]),
    h9 "updatedAt" (by simp [canonicalKeys]),
    Bool.false_eq_true, if_false]
  rfl

/-- C1: the claim says that on live-GET failure with no usable fallback cache
file the original fetch error propagates with no further network request.
The code instead rethrows into the outer cache-setup catch, which issues a
second direct GET: with an empty cache directory and a failing first GET,
both `getUsers` and `getDomains` issue two GETs and return the second GET's
success, and when both GETs fail the propagated error is the second one. -/
theorem getUsers_no_fallback_second_fetch :
    getUsers ⟨true, [], 0, fun _ i => if i == 0 then Except.error "ECONNREFUSED" else Except.ok (Json.str "second")⟩ "https://h" "h"
      = ⟨Except.ok (Json.str "second"), [], 2⟩ ∧
    getDomains ⟨true, [], 0, fun _ i => if i == 0 then Except.error "ECONNREFUSED" else Except.ok (Json.str "second")⟩ "https://h" "h"
      = ⟨Except.ok (Json.str "second"), [], 2⟩ ∧
    getUsers ⟨true, [], 0, fun _ i => if i == 0 then Except.error "E1" else Except.error "E2"⟩ "https://h" "h"
      = ⟨Except.error "E2", [], 2⟩ :=
  ⟨rfl, rfl, rfl⟩

/-- C2 counterexample: with a fresh (age 0) cache file for the current hour
bucket whose content is malformed, `getUsers` does not propagate a parse
error: it returns the network GET's payload, having issued one network
request (the parse throw is swallowed as a cache miss). -/
theorem getUsers_malformed_fresh_counterexample :
    getUsers ⟨true, [(usersCacheName "h" 0, ⟨0, none⟩)], 0, fun _ _ => Except.ok (Json.str "net")⟩ "https://h" "h"
      = ⟨Except.ok (Json.str "net"),
         [(usersCacheName "h" 0, ⟨0, some (Json.str "net")⟩),
          (usersCacheName "h" 0 ++ ".tmp", ⟨0, some (Json.str "net")⟩)], 1⟩ :=
  rfl

/-- C2 amended: when the current hour-bucket cache file exists, is fresh and
holds malformed JSON, the fetch behaves exactly as on a cache miss: the
parse error is swallowed and the invocation proceeds to the fetch-and-update
path, issuing at least one network request. -/
theorem getUsers_malformed_fresh_is_cache_miss
    (fs0 : Fs) (ms : Nat) (net : String → Nat → Except String Json)
    (apiHost hostRaw : String) (fi : FileInfo)
    (hstat : fsStat fs0 (usersCacheName hostRaw ms) = some fi)
    (hfresh : ms - fi.mtimeMs < 3600000)
    (hmal : fi.parsed = none) :
    getUsers ⟨true, fs0, ms, net⟩ apiHost hostRaw
      = usersFetchUpdate ⟨true, fs0, ms, net⟩ apiHost (sanitizeHost hostRaw) (usersCacheName hostRaw ms) ∧
    1 ≤ (usersFetchUpdate ⟨true, fs0, ms, net⟩ apiHost (sanitizeHost hostRaw) (usersCacheName hostRaw ms)).calls := by
  refine ⟨?_, usersFetchUpdate_calls_pos _ _ _ _⟩
  unfold getUsers
  dsimp only
  rw [show fsStat fs0 (sanitizeHost hostRaw ++ "_users_" ++ hourStamp ms ++ ".json") = some fi from hstat]
  dsimp only
  rw [if_pos hfresh, hmal]
  rfl

/-- C2 witness: the amended theorem applied to a concrete fresh malformed
cache entry. -/
theorem getUsers_malformed_fresh_is_cache_miss_witness :
    getUsers ⟨true, [(usersCacheName "h" 0, ⟨0, none⟩)], 0, fun _ _ => Except.ok (Json.str "net")⟩ "https://h" "h"
      = usersFetchUpdate ⟨true, [(usersCacheName "h" 0, ⟨0, none⟩)], 0, fun _ _ => Except.ok (Json.str "net")⟩ "https://h" (sanitizeHost "h") (usersCacheName "h" 0) ∧
    1 ≤ (usersFetchUpdate ⟨true, [(usersCacheName "h" 0, ⟨0, none⟩)], 0, fun _ _ => Except.ok (Json.str "net")⟩ "https://h" (sanitizeHost "h") (usersCacheName "h" 0)).calls :=
  getUsers_malformed_fresh_is_cache_miss [(usersCacheName "h" 0, ⟨0, none⟩)] 0
    (fun _ _ => Except.ok (Json.str "net")) "https://h" "h" ⟨0, none⟩ rfl (by decide) rfl

/-- C3 counterexample: on an element carrying both `createdAt` and
`created_at`, the normalizer's createdAt is the `created_at` value (the
snake_case alias is tried first, not the upstream field itself), and on an
element whose `id` is the empty string with a non-empty `user_id` alias, the
empty string wins (fields coalesce on null/undefined, not on emptiness) —
both contrary to the claim. -/
theorem normalizeElem_alias_counterexample :
    (normalizeElem (Json.obj [("createdAt", Json.str "A"), ("created_at", Json.str "B"), ("id", Json.str ""), ("user_id", Json.str "X")])).createdAt = some (Json.str "B") ∧
    (normalizeElem (Json.obj [("createdAt", Json.str "A"), ("created_at", Json.str "B"), ("id", Json.str ""), ("user_id", Json.str "X")])).id = some (Json.str "") ∧
    ¬ ((normalizeElem (Json.obj [("createdAt", Json.str "A"), ("created_at", Json.str "B"), ("id", Json.str ""), ("user_id", Json.str "X")])).createdAt = some (Json.str "A")) ∧
    ¬ ((normalizeElem (Json.obj [("createdAt", Json.str "A"), ("created_at", Json.str "B"), ("id", Json.str ""), ("user_id", Json.str "X")])).id = some (Json.str "X")) := by
  refine ⟨rfl, rfl, fun h => ?_, fun h => ?_⟩
  · injection h with h1
    injection h1 with h2
    exact absurd h2 (by decide)
  · injection h with h1
    injection h1 with h2
    exact absurd h2 (by decide)

/-- C3 amended: every canonical field is resolved by nullish coalescing over
its alias chain (first present non-null value wins, so an empty string
wins); the upstream field is tried first for id, email, firstName,
lastName, displayName and username, while createdAt tries created_at, then
createdAt, then created, and updatedAt tries updated_at, then updatedAt,
then updated. -/
theorem normalizeElem_alias_chains (it : Json) :
    (normalizeElem it).id = firstNonNull (denull it) ["id", "user_id", "uid", "_id"] ∧
    (normalizeElem it).email = firstNonNull (denull it) ["email", "email_address", "emailAddress"] ∧
    (normalizeElem it).firstName = firstNonNull (denull it) ["firstName", "first_name", "given_name"] ∧
    (normalizeElem it).lastName = firstNonNull (denull it) ["lastName", "last_name", "family_name"] ∧
    (normalizeElem it).displayName = firstNonNull (denull it) ["displayName", "display_name", "name", "fullName"] ∧
    (normalizeElem it).username = firstNonNull (denull it) ["username", "login"] ∧
    (normalizeElem it).createdAt = firstNonNull (denull it) ["created_at", "createdAt", "created"] ∧
    (normalizeElem it).updatedAt = firstNonNull (denull it) ["updated_at", "updatedAt", "updated"] :=
  ⟨rfl, rfl, rfl, rfl, rfl, rfl, rfl, rfl⟩

/-- C4 counterexample: on an element with firstName "A", lastName "B" and a
raw name "C" but no display-name field, the normalized `name` is "C" (the
raw name feeds the displayName alias chain, which has top priority), not
the space-joined "A B" the claim requires. -/
theorem normalizeElem_name_counterexample :
    (normalizeElem (Json.obj [("firstName", Json.str "A"), ("lastName", Json.str "B"), ("name", Json.str "C")])).name = some (Json.str "C") ∧
    ¬ ((normalizeElem (Json.obj [("firstName", Json.str "A"), ("lastName", Json.str "B"), ("name", Json.str "C")])).name = some (Json.str "A B")) := by
  refine ⟨rfl, fun h => ?_⟩
  injection h with h1
  injection h1 with h2
  exact absurd h2 (by decide)

/-- C4 amended: `name` is derived with priority: the display-name alias
chain (displayName, display_name, raw name, fullName) first, then the
space-joined truthy firstName/lastName, then the raw `name` field; because
the raw `name` already feeds the display-name chain, an element with
firstName, lastName and a raw name but no display-name field gets the raw
name.  `name` is never the empty string: when no truthy name-bearing value
exists it is undefined. -/
theorem normalizeElem_name_priority (it : Json) :
    (normalizeElem it).name = specName it ∧
    ¬ ((normalizeElem it).name = some (Json.str "")) := by
  constructor
  · rfl
  · have e : (normalizeElem it).name = specName it := rfl
    rw [e]
    unfold specName
    apply jsOr_ne_empty
    apply jsOr_ne_empty
    apply jsOr_ne_empty
    simp

/-- C5 counterexample: for the element carrying both `created_at` = "x" and
`createdAt` = "y", the output record's `createdAt` is "x", so the upstream
pair (`createdAt`, "y") is not preserved anywhere in the record —
information is lost, contrary to the claim. -/
theorem normalizeElem_passthrough_counterexample :
    recGet (normalizeElem (Json.obj [("created_at", Json.str "x"), ("createdAt", Json.str "y")])).toObj "createdAt" = some (some (Json.str "x")) ∧
    (normalizeElem (Json.obj [("created_at", Json.str "x"), ("createdAt", Json.str "y")])).extras = [("created_at", some (Json.str "x"))] ∧
    ¬ (recGet (normalizeElem (Json.obj [("created_at", Json.str "x"), ("createdAt", Json.str "y")])).toObj "createdAt" = some (some (Json.str "y"))) := by
  refine ⟨rfl, rfl, fun h => ?_⟩
  injection h with h1
  injection h1 with h2
  injection h2 with h3
  exact absurd h3 (by decide)

/-- C5 amended: the copy loop adds every upstream key not already present on
the record, but all nine canonical keys are always present (even when
undefined), and inherited Object.prototype names also count as present; so
exactly the upstream keys outside the canonical set and outside the
prototype names are preserved verbatim, while an upstream value stored
under a canonical key survives only when the alias resolution chose it. -/
theorem normalizeElem_passthrough_preserved (it : Json) (k : String)
    (hc : canonicalKeys.any (fun c => c == k) = false)
    (hp : objectProtoKeys.any (fun c => c == k) = false)
    (hk : k ∈ jsKeys it) :
    recGet (normalizeElem it).toObj k = some (jsGet it k) := by
  have hne : it ≠ Json.null := by
    rintro rfl
    simp [jsKeys] at hk
  have hd : denull it = it := by
    cases it with
    | null => exact absurd rfl hne
    | bool b => rfl
    | num n => rfl
    | str s => rfl
    | arr xs => rfl
    | obj kvs => rfl
  rw [recGet_toObj_noncanonical _ _ hc]
  show recGet (copyExtras (denull it) (jsKeys (denull it)) []) k = some (jsGet it k)
  rw [hd]
  exact recGet_copyExtras_found it (jsKeys it) k hc hp [] rfl hk

/-- C5 witness: a non-canonical upstream key is preserved verbatim. -/
theorem normalizeElem_passthrough_preserved_witness :
    recGet (normalizeElem (Json.obj [("foo", Json.str "bar")])).toObj "foo" = some (some (Json.str "bar")) :=
  normalizeElem_passthrough_preserved (Json.obj [("foo", Json.str "bar")]) "foo"
    (by decide) (by decide) (by decide)

/-- C6: `determineRoute` is a pure total function (it always returns one of
the two routes and has no effects), and it returns `domains` exactly when
some fixed domain keyword occurs in the lower-cased query and no fixed user
keyword does; in every other case (both or neither matching) it returns
`users`. -/
theorem determineRoute_domains_iff (q : String) :
    (determineRoute q = Route.domains ↔
      (domainKeywords.any (fun kw => strIncludes q.toLower kw) = true ∧
       ¬ (userKeywords.any (fun kw => strIncludes q.toLower kw) = true))) ∧
    (determineRoute q = Route.users ∨ determineRoute q = Route.domains) := by
  unfold determineRoute
  cases hd : domainKeywords.any (fun kw => strIncludes q.toLower kw) <;>
    cases hu : userKeywords.any (fun kw => strIncludes q.toLower kw) <;>
      simp [hd, hu]

/-- C7: the element sequence of `normalizeUsersResponse` follows the claimed
strict first-match precedence (falsy input, array, `users`, `data.users`,
`data`, `items`, singleton) — the code's extra truthiness guards never
change the selection — and in particular `[]`, `undefined`, `null` give
`[]` and a bare object gives the one-element sequence of its normalized
form. -/
theorem normalizeUsersResponse_selection (raw : JsVal) :
    normalizeUsersResponse raw = (specSelect raw).map normalizeElem ∧
    normalizeUsersResponse (some (Json.arr [])) = [] ∧
    normalizeUsersResponse none = [] ∧
    normalizeUsersResponse (some Json.null) = [] ∧
    normalizeUsersResponse (some (Json.obj [("a", Json.num 1)]))
      = [normalizeElem (Json.obj [("a", Json.num 1)])] := by
  refine ⟨?_, rfl, rfl, rfl, rfl⟩
  cases raw with
  | none => rfl
  | some j =>
    cases j with
    | null => rfl
    | bool b => cases b <;> rfl
    | num n =>
      have h1 : jsGet (Json.num n) "users" = none := rfl
      have h2 : jsGet (Json.num n) "data" = none := rfl
      have h3 : jsGet (Json.num n) "items" = none := rfl
      cases ht : truthyJ (Json.num n) <;>
        simp [normalizeUsersResponse, specSelect, selectArr, ht, h1, h2, h3, truthyV, isArrB, jpropV]
    | str s =>
      have h1 : jsGet (Json.str s) "users" = none := rfl
      have h2 : jsGet (Json.str s) "data" = none := rfl
      have h3 : jsGet (Json.str s) "items" = none := rfl
      cases ht : truthyJ (Json.str s) <;>
        simp [normalizeUsersResponse, specSelect, selectArr, ht, h1, h2, h3, truthyV, isArrB, jpropV]
    | arr xs => rfl
    | obj kvs =>
      show (if truthyV (jsGet (Json.obj kvs) "users") && isArrB (jsGet (Json.obj kvs) "users") then toArr (jsGet (Json.obj kvs) "users")
            else if truthyV (jsGet (Json.obj kvs) "data") && isArrB (jpropV (jsGet (Json.obj kvs) "data") "users") then toArr (jpropV (jsGet (Json.obj kvs) "data") "users")
            else if truthyV (jsGet (Json.obj kvs) "data") && isArrB (jsGet (Json.obj kvs) "data") then toArr (jsGet (Json.obj kvs) "data")
            else if isArrB (jsGet (Json.obj kvs) "items") then toArr (jsGet (Json.obj kvs) "items")
            else [Json.obj kvs]).map normalizeElem
          = (if isArrB (jsGet (Json.obj kvs) "users") then toArr (jsGet (Json.obj kvs) "users")
             else if isArrB (jpropV (jsGet (Json.obj kvs) "data") "users") then toArr (jpropV (jsGet (Json.obj kvs) "data") "users")
             else if isArrB (jsGet (Json.obj kvs) "data") then toArr (jsGet (Json.obj kvs) "data")
             else if isArrB (jsGet (Json.obj kvs) "items") then toArr (jsGet (Json.obj kvs) "items")
             else [Json.obj kvs]).map normalizeElem
      rw [truthyV_and_isArrB, and_isArrB_jprop, truthyV_and_isArrB]

/-- C8: two `getUsers` invocations against the same host in the same UTC
hour bucket, where the first starts from a missing bucket file and its GET
succeeds: the first issues exactly one GET and returns the payload, and the
second — run on the cache directory the first one left behind — issues no
GET and returns the same payload from the freshly written bucket file. -/
theorem getUsers_same_hour_single_call
    (fs0 : Fs) (ms1 ms2 : Nat) (net1 net2 : String → Nat → Except String Json)
    (apiHost hostRaw : String) (data : Json)
    (hle : ms1 ≤ ms2) (hb : ms1 / 3600000 = ms2 / 3600000)
    (hmiss : fsStat fs0 (usersCacheName hostRaw ms1) = none)
    (hnet : net1 (apiHost ++ "/users") 0 = Except.ok data) :
    (getUsers ⟨true, fs0, ms1, net1⟩ apiHost hostRaw).calls = 1 ∧
    (getUsers ⟨true, fs0, ms1, net1⟩ apiHost hostRaw).outcome = Except.ok data ∧
    (getUsers ⟨true, (getUsers ⟨true, fs0, ms1, net1⟩ apiHost hostRaw).fs, ms2, net2⟩ apiHost hostRaw).calls = 0 ∧
    (getUsers ⟨true, (getUsers ⟨true, fs0, ms1, net1⟩ apiHost hostRaw).fs, ms2, net2⟩ apiHost hostRaw).outcome = Except.ok data := by
  have hr1 : getUsers ⟨true, fs0, ms1, net1⟩ apiHost hostRaw
      = ⟨Except.ok data,
         fsWrite (fsWrite fs0 (usersCacheName hostRaw ms1 ++ ".tmp") ⟨ms1, some data⟩)
           (usersCacheName hostRaw ms1) ⟨ms1, some data⟩, 1⟩ := by
    unfold getUsers
    dsimp only
    rw [show fsStat fs0 (sanitizeHost hostRaw ++ "_users_" ++ hourStamp ms1 ++ ".json") = none from hmiss]
    unfold usersFetchUpdate
    dsimp only
    rw [hnet]
    rfl
  have hname : (sanitizeHost hostRaw ++ "_users_" ++ hourStamp ms2 ++ ".json") = usersCacheName hostRaw ms1 := by
    unfold usersCacheName hourStamp
    rw [hb]
  have hage : ms2 - ms1 < 3600000 := sameBucket_age ms1 ms2 hle hb
  refine ⟨by rw [hr1], by rw [hr1], ?_, ?_⟩
  · rw [hr1]
    unfold getUsers
    dsimp only
    rw [hname, fsStat_fsWrite_self]
    dsimp only
    rw [if_pos hage]
    rfl
  · rw [hr1]
    unfold getUsers
    dsimp only
    rw [hname, fsStat_fsWrite_self]
    dsimp only
    rw [if_pos hage]
    rfl

/-- C8 witness: the theorem at a concrete empty cache directory and two
clock readings inside hour bucket 0. -/
theorem getUsers_same_hour_single_call_witness :
    (getUsers ⟨true, [], 0, fun _ _ => Except.ok Json.null⟩ "https://h" "h").calls = 1 ∧
    (getUsers ⟨true, [], 0, fun _ _ => Except.ok Json.null⟩ "https://h" "h").outcome = Except.ok Json.null ∧
    (getUsers ⟨true, (getUsers ⟨true, [], 0, fun _ _ => Except.ok Json.null⟩ "https://h" "h").fs, 1, fun _ _ => Except.error "down"⟩ "https://h" "h").calls = 0 ∧
    (getUsers ⟨true, (getUsers ⟨true, [], 0, fun _ _ => Except.ok Json.null⟩ "https://h" "h").fs, 1, fun _ _ => Except.error "down"⟩ "https://h" "h").outcome = Except.ok Json.null :=
  getUsers_same_hour_single_call [] 0 1 (fun _ _ => Except.ok Json.null)
    (fun _ _ => Except.error "down") "https://h" "h" Json.null
    (by decide) (by decide) rfl rfl

/-- C9: when the AI call inside the generate-answer step throws, the step
does not propagate the error: given present input with at least one branch
payload, it returns a successful output whose answer is the string
"Error calling AI service: " followed by the failure's message. -/
theorem generateAnswer_error_as_content (usersData domainsData : Option StepData) (m : String)
    (h : usersData.isSome = true ∨ domainsData.isSome = true) :
    generateAnswer (some (usersData, domainsData)) (AiCallResult.thrown m)
      = Except.ok ⟨"Error calling AI service: " ++ m⟩ := by
  cases usersData with
  | some x => rfl
  | none =>
    cases domainsData with
    | some y => rfl
    | none => simp [Option.isSome] at h

/-- C9 witness: a thrown ConnectionRefused yields exactly the claimed
output. -/
theorem generateAnswer_error_as_content_witness :
    generateAnswer (some (some ⟨Json.null, "users", "show me all accounts"⟩, none))
        (AiCallResult.thrown "ConnectionRefused")
      = Except.ok ⟨"Error calling AI service: ConnectionRefused"⟩ :=
  generateAnswer_error_as_content (some ⟨Json.null, "users", "show me all accounts"⟩) none
    "ConnectionRefused" (Or.inl rfl)

/-- C10: `getUsers` and `getDomains` are both instances of the one
resource-generic algorithm, at kind "users" and "domains" respectively; the
kind determines exactly the URL path suffix and the resource segment of the
cache file name, so for every environment (cache-setup outcome, cache
directory, clock and network behaviour) their results coincide modulo that
substitution. -/
theorem getUsers_getDomains_kind_generic (env : Env) (apiHost hostRaw : String) :
    getUsers env apiHost hostRaw = getResource env "users" apiHost hostRaw ∧
    getDomains env apiHost hostRaw = getResource env "domains" apiHost hostRaw :=
  ⟨rfl, rfl⟩
